import Mathlib

/-! Verification of the dual-bucket reconciliation and cleanup engine of the
support-case insights pipeline, together with the shared retry utility.
Remote calls (storage listing, head-object, bulk delete) are shallowly
embedded as oracle functions supplied to each operation, and side effects
(delete calls, metric publications) are collected in explicit traces. -/

namespace CaseInsights

/-- Result of running the retry wrapper: the final outcome (where
`Except.error none` models re-raising when no attempt ever ran), the number
of times the wrapped operation was invoked, and the backoff sleeps
performed, in order. -/
structure RetryOutcome (ε α : Type) where
  result : Except (Option ε) α
  calls : Nat
  sleeps : List ℚ

/-- Embedding of `exponential_backoff` from `common/utils.py`.  `rand` models the value
drawn from `random.random()` (a number in `[0, 1)`); the jittered delay is
`delay * (0.8 + 0.2 * rand)`.  Returns `-1` once `attempt` reaches
`max_attempts`, signalling that the attempts are exhausted. -/
def exponential_backoff (attempt : Nat) (max_attempts : Nat) (base_delay : ℚ)
    (jitter : Bool) (rand : ℚ) : ℚ :=
  if attempt ≥ max_attempts then -1
  else
    let delay := base_delay * 2 ^ attempt
    if jitter then delay * (4/5 + 1/5 * rand) else delay

/-- The `for attempt in range(max_attempts)` loop of `retry_with_backoff`.
`f i` is the outcome of the `i`-th invocation of the wrapped operation,
`backoff i` the delay computed after a failure of attempt `i`, and the
second argument carries `last_exception`.  A negative delay breaks out of
the loop; otherwise the delay is slept and the loop continues. -/
def retryLoop (f : Nat → Except ε α) (backoff : Nat → ℚ) :
    List Nat → Option ε → RetryOutcome ε α
  | [], last => ⟨.error last, 0, []⟩
  | a :: rest, _ =>
    match f a with
    | .ok v => ⟨.ok v, 1, []⟩
    | .error e =>
      if backoff a < 0 then ⟨.error (some e), 1, []⟩
      else
        let r := retryLoop f backoff rest (some e)
        ⟨r.result, r.calls + 1, backoff a :: r.sleeps⟩

/-- Embedding of `retry_with_backoff` from `common/utils.py`, with the sequence of
invocation outcomes and the random draws supplied as oracles. -/
def retry_with_backoff (f : Nat → Except ε α) (max_attempts : Nat)
    (base_delay : ℚ) (rand : Nat → ℚ) : RetryOutcome ε α :=
  retryLoop f
    (fun attempt => exponential_backoff attempt max_attempts base_delay true (rand attempt))
    (List.range max_attempts) none

/-! ## String helpers

The cleanup code manipulates S3 keys with `split`, `strip`, `rstrip`,
`startswith` and `endswith`.  These are embedded over the character list of
the string so that they compute by structural recursion. -/

/-- Python `s.split(sep)` for a one-character separator, acting on the
character list: splitting the empty string yields `[[]]`. -/
def splitCharList (sep : Char) : List Char → List (List Char)
  | [] => [[]]
  | c :: cs =>
    let r := splitCharList sep cs
    if c = sep then [] :: r
    else
      match r with
      | [] => [[c]]
      | h :: t => (c :: h) :: t

/-- Python `s.split(sep)` for a one-character separator. -/
def pySplit (sep : Char) (s : String) : List String :=
  (splitCharList sep s.data).map (fun cs => String.mk cs)

/-- Python `s.rstrip(c)`: remove trailing occurrences of `c`. -/
def pyRstrip (c : Char) (s : String) : String :=
  String.mk ((s.data.reverse.dropWhile (fun x => x = c)).reverse)

/-- Python `s.strip(c)`: remove leading and trailing occurrences of `c`. -/
def pyStrip (c : Char) (s : String) : String :=
  String.mk (((s.data.dropWhile (fun x => x = c)).reverse.dropWhile (fun x => x = c)).reverse)

/-- Python `s.endswith(suffix)`. -/
def pyEndsWith (suffix s : String) : Bool :=
  suffix.data.isSuffixOf s.data

/-- Python `s.startswith(pre)`. -/
def pyStartsWith (pre s : String) : Bool :=
  pre.data.isPrefixOf s.data

/-! ## Storage-service model

All remote calls of `case-cleanup/app.py` are mediated by a static oracle:
each call site receives the outcome the service would give.  Side effects
performed by a run (bulk delete calls and metric publications) are
collected in a trace. -/

/-- Observable side effects of a cleanup run. -/
inductive Effect
  | deleteCall (bucket : String) (keys : List String)
  | publishMetrics (accountsProcessed casesScanned casesRemoved errors : Nat)
deriving DecidableEq

/-- Outcome of an S3 `head_object` call: success, a `ClientError` carrying
its error code, or some other raised exception. -/
inductive S3HeadResult
  | ok
  | clientError (code : String)
  | fatal (msg : String)
deriving DecidableEq

/-- Response of one `delete_objects` call: a response whose `Errors` list
holds the keys that failed to delete, or a raised exception. -/
inductive DeleteResp
  | ok (errors : List String)
  | exn (msg : String)
deriving DecidableEq

/-- Oracle for the storage service.  `listPrefixes bucket pre` models a
`list_objects_v2` paginator with `Delimiter='/'` returning the collected
`CommonPrefixes`; `listKeys bucket pre` one without a delimiter returning
the keys of the collected `Contents`; `headObject` and `deleteObjects`
model the corresponding single calls.  An `Except.error` models a raised
exception. -/
structure S3Env where
  listPrefixes : String → String → Except String (List String)
  listKeys : String → String → Except String (List String)
  headObject : String → String → S3HeadResult
  deleteObjects : String → List String → DeleteResp

/-! ## `case-cleanup/app.py` -/

/-- Embedding of `list_account_folders`: list the `account_number=` prefixes of a
bucket; a listing failure is re-raised. -/
def list_account_folders (env : S3Env) (bucket : String) : Except String (List String) :=
  env.listPrefixes bucket "account_number="

/-- Embedding of `list_case_folders`: list the case-folder prefixes under one account
folder; a listing failure is re-raised. -/
def list_case_folders (env : S3Env) (bucket account_folder : String) :
    Except String (List String) :=
  env.listPrefixes bucket account_folder

/-- Embedding of `check_case_completion`: head the `data.json` marker under the case
folder in the processed bucket.  Present means complete, a 404
`ClientError` means incomplete, anything else propagates. -/
def check_case_completion (env : S3Env) (processed_bucket case_folder : String) :
    Except String Bool :=
  match env.headObject processed_bucket (case_folder ++ "data.json") with
  | .ok => .ok true
  | .clientError code => if code = "404" then .ok false else .error code
  | .fatal msg => .error msg

/-- Embedding of `get_case_info_from_folder`: parse
`account_number=<id>/case_number=<id>/` into its two ids; `none` models the
re-raised `IndexError` when a component lacks its expected shape. -/
def get_case_info_from_folder (case_folder : String) : Option (String × String) :=
  let parts := pySplit '/' (pyStrip '/' case_folder)
  match parts.get? 0, parts.get? 1 with
  | some p0, some p1 =>
    match (pySplit '=' p0).get? 1, (pySplit '=' p1).get? 1 with
    | some account_id, some case_id => some (account_id, case_id)
    | _, _ => none
  | _, _ => none

/-- Embedding of `should_skip_account` -/
def should_skip_account (account_id : String) (excluded_accounts : List String) : Bool :=
  excluded_accounts.contains account_id

/-- Embedding of `list_objects_in_case_folder`: list every object key under a case
folder; a listing failure is re-raised. -/
def list_objects_in_case_folder (env : S3Env) (bucket case_folder : String) :
    Except String (List String) :=
  env.listKeys bucket case_folder

/-- Recursion core for `batchSlices`: the fuel (in the caller the list
length) bounds the number of slices, since each slice consumes at least one
element; the zero-fuel branch is unreachable for that caller. -/
def batchSlicesAux : Nat → List String → List (List String)
  | _, [] => []
  | 0, _ => []
  | fuel + 1, x :: xs => (x :: xs).take 1000 :: batchSlicesAux fuel ((x :: xs).drop 1000)

/-- The `range(0, len(objects), batch_size)` slicing of
`delete_objects_from_bucket`, with `batch_size = 1000` (the S3
`delete_objects` limit). -/
def batchSlices (objects : List String) : List (List String) :=
  batchSlicesAux objects.length objects

/-- The per-batch loop of `delete_objects_from_bucket`: issue one
`delete_objects` call per slice; stop with `false` as soon as a response
reports object-level errors or the call raises (the raised exception is
caught by the surrounding `try`). -/
def deleteBatches (call : String → List String → DeleteResp) (bucket : String) :
    List (List String) → Bool × List Effect
  | [] => (true, [])
  | b :: rest =>
    match call bucket b with
    | .exn _ => (false, [Effect.deleteCall bucket b])
    | .ok errs =>
      if errs.isEmpty then
        let r := deleteBatches call bucket rest
        (r.1, Effect.deleteCall bucket b :: r.2)
      else (false, [Effect.deleteCall bucket b])

/-- Embedding of `delete_objects_from_bucket`: delete the given keys in slices of 1000,
returning whether everything succeeded, together with the trace of issued
delete calls. -/
def delete_objects_from_bucket (call : String → List String → DeleteResp)
    (bucket : String) (objects : List String) : Bool × List Effect :=
  deleteBatches call bucket (batchSlices objects)

/-- Embedding of `delete_case_folder` with its effect trace.  Exceptions raised by the
listings or by `get_case_info_from_folder` are caught by the surrounding
`try` and yield a `false` result without further work. -/
def delete_case_folder (env : S3Env) (raw_bucket processed_bucket case_folder : String)
    (dry_run : Bool) : Bool × List Effect :=
  match list_objects_in_case_folder env raw_bucket case_folder with
  | .error _ => (false, [])
  | .ok raw_objects =>
    match list_objects_in_case_folder env processed_bucket case_folder with
    | .error _ => (false, [])
    | .ok processed_objects =>
      if raw_objects.length + processed_objects.length = 0 then (true, [])
      else
        match get_case_info_from_folder case_folder with
        | none => (false, [])
        | some _ =>
          if dry_run then (true, [])
          else
            let rawStep :=
              if raw_objects.isEmpty then (true, ([] : List Effect))
              else delete_objects_from_bucket env.deleteObjects raw_bucket raw_objects
            if rawStep.1 then
              let procStep :=
                if processed_objects.isEmpty then (true, ([] : List Effect))
                else delete_objects_from_bucket env.deleteObjects processed_bucket processed_objects
              (procStep.1, rawStep.2 ++ procStep.2)
            else (false, rawStep.2)

/-- Embedding of `perform_cleanup_batch`: run `delete_case_folder` over every accepted
case folder, counting successes and failures, with the combined trace. -/
def perform_cleanup_batch (env : S3Env) (raw_bucket processed_bucket : String)
    (case_folders : List String) (dry_run : Bool) : (Nat × Nat) × List Effect :=
  match case_folders with
  | [] => ((0, 0), [])
  | cf :: rest =>
    let d := delete_case_folder env raw_bucket processed_bucket cf dry_run
    let r := perform_cleanup_batch env raw_bucket processed_bucket rest dry_run
    ((if d.1 then r.1.1 + 1 else r.1.1, if d.1 then r.1.2 else r.1.2 + 1), d.2 ++ r.2)

/-- The inner `for case_folder in case_folders` loop of
`identify_incomplete_cases`: collect incomplete case folders until an
exception (a non-404 completion check, or the logging call parsing a
malformed folder path) aborts the current account; a case appended before
the exception stays collected. -/
def scanCases (env : S3Env) (processed_bucket : String) : List String → List String
  | [] => []
  | cf :: rest =>
    match check_case_completion env processed_bucket cf with
    | .error _ => []
    | .ok true => scanCases env processed_bucket rest
    | .ok false =>
      match get_case_info_from_folder cf with
      | none => [cf]
      | some _ => cf :: scanCases env processed_bucket rest

/-- Embedding of `account_folder.split('=')[1].rstrip('/')`; `none` models the
`IndexError` raised when the folder name has no `=`. -/
def accountIdOf (account_folder : String) : Option String :=
  ((pySplit '=' account_folder).get? 1).map (pyRstrip '/')

/-- The body of the per-account loop of `identify_incomplete_cases`: the
cases one account folder contributes to the shared `incomplete_cases`
list.  Every exception inside the body is caught by the per-account
`except` and the loop continues, so a failing account contributes exactly
what was collected before the failure. -/
def processAccountFolder (env : S3Env) (raw_bucket processed_bucket : String)
    (excluded_accounts : List String) (account_folder : String) : List String :=
  match accountIdOf account_folder with
  | none => []
  | some account_id =>
    if should_skip_account account_id excluded_accounts then []
    else
      match list_case_folders env raw_bucket account_folder with
      | .error _ => []
      | .ok case_folders => scanCases env processed_bucket case_folders

/-- Embedding of `identify_incomplete_cases`: enumerate account folders of the raw
bucket and collect the incomplete cases of every account folder; only a failure
of the account enumeration itself is re-raised. -/
def identify_incomplete_cases (env : S3Env) (raw_bucket processed_bucket : String)
    (excluded_accounts : List String) : Except String (List String) :=
  match list_account_folders env raw_bucket with
  | .error e => .error e
  | .ok account_folders =>
    .ok (account_folders.flatMap
      (processAccountFolder env raw_bucket processed_bucket excluded_accounts))

/-- Embedding of `validate_cleanup_safety`: no candidates is a no-op; more candidates
than `max_deletions` are sorted and cut to the first `max_deletions`;
otherwise the list passes through unchanged. -/
def validate_cleanup_safety (incomplete_cases : List String) (max_deletions : Nat) :
    List String :=
  if incomplete_cases.length = 0 then []
  else if incomplete_cases.length > max_deletions then
    (incomplete_cases.mergeSort (fun a b => decide (a ≤ b))).take max_deletions
  else incomplete_cases

/-- Embedding of `count_total_cases`: per-account case count for metrics; per-account
failures (malformed folder name or listing error) are caught and that
account contributes nothing. -/
def count_total_cases (env : S3Env) (bucket : String) (account_folders : List String)
    (excluded_accounts : List String) : Nat :=
  match account_folders with
  | [] => 0
  | af :: rest =>
    let rest_count := count_total_cases env bucket rest excluded_accounts
    match accountIdOf af with
    | none => rest_count
    | some account_id =>
      if should_skip_account account_id excluded_accounts then rest_count
      else
        match list_case_folders env bucket af with
        | .error _ => rest_count
        | .ok case_folders => case_folders.length + rest_count

/-- The list comprehension computing `accounts_processed` in
`cleanup_incomplete_cases`; `none` models the uncaught `IndexError` raised
when some folder name lacks `=` (a fatal error of the run). -/
def computeAccountsProcessed (account_folders : List String)
    (excluded_accounts : List String) : Option Nat :=
  (account_folders.mapM accountIdOf).map
    (fun ids => (ids.filter (fun aid => ! should_skip_account aid excluded_accounts)).length)

/-- The metric publication of the `finally` block: skipped entirely in
dry-run mode. -/
def metricsIf (dry_run : Bool) (accounts cases_scanned cases_removed errors : Nat) :
    List Effect :=
  if dry_run then [] else [Effect.publishMetrics accounts cases_scanned cases_removed errors]

/-- The configuration dictionary built by `get_configuration`. -/
structure Config where
  raw_bucket_name : String
  processed_bucket_name : String
  dry_run : Bool
  max_deletions : Nat
  excluded_accounts : List String

/-- The result dictionary of `cleanup_incomplete_cases`; `dry_run = none`
models a returned dictionary that lacks the `dry_run` key (the early
return for an empty bucket builds its dictionary without it). -/
structure RunResult where
  accounts_processed : Nat
  cases_scanned : Nat
  cases_removed : Nat
  errors : Nat
  duration_seconds : ℚ
  dry_run : Option Bool
deriving DecidableEq

/-- Embedding of `cleanup_incomplete_cases`: the returned result dictionary (or the
propagated fatal exception) together with the trace of delete calls
and metric publications.  `dur` stands for the wall-clock duration measured
in the `finally` block. -/
def cleanup_incomplete_cases (env : S3Env) (config : Config) (dur : ℚ) :
    Except String RunResult × List Effect :=
  match list_account_folders env config.raw_bucket_name with
  | .error e => (.error e, metricsIf config.dry_run 0 0 0 1)
  | .ok account_folders =>
    if account_folders.isEmpty then
      (.ok ⟨0, 0, 0, 0, 0, none⟩, metricsIf config.dry_run 0 0 0 0)
    else
      let cases_scanned := count_total_cases env config.raw_bucket_name
        account_folders config.excluded_accounts
      match computeAccountsProcessed account_folders config.excluded_accounts with
      | none => (.error "IndexError", metricsIf config.dry_run 0 cases_scanned 0 1)
      | some accounts_processed =>
        match identify_incomplete_cases env config.raw_bucket_name
            config.processed_bucket_name config.excluded_accounts with
        | .error e =>
          (.error e, metricsIf config.dry_run accounts_processed cases_scanned 0 1)
        | .ok incomplete_cases =>
          let cases_to_cleanup := validate_cleanup_safety incomplete_cases config.max_deletions
          if cases_to_cleanup.isEmpty then
            (.ok ⟨accounts_processed, cases_scanned, 0, 0, dur, some config.dry_run⟩,
             metricsIf config.dry_run accounts_processed cases_scanned 0 0)
          else
            let batch := perform_cleanup_batch env config.raw_bucket_name
              config.processed_bucket_name cases_to_cleanup config.dry_run
            (.ok ⟨accounts_processed, cases_scanned, batch.1.1, batch.1.2, dur,
                some config.dry_run⟩,
             batch.2 ++ metricsIf config.dry_run accounts_processed cases_scanned
               batch.1.1 batch.1.2)

/-- The HTTP-style response assembled by `lambda_handler`. -/
structure HandlerResponse where
  statusCode : Nat
  results : Option RunResult
  error : Option String
deriving DecidableEq

/-- Embedding of `lambda_handler`: wrap a successful cleanup result in a 200 response
and a propagated exception in a 500 error response. -/
def lambda_handler (env : S3Env) (config : Config) (dur : ℚ) : HandlerResponse :=
  match (cleanup_incomplete_cases env config dur).1 with
  | .ok results => ⟨200, some results, none⟩
  | .error e => ⟨500, none, some e⟩

/-- The trimmed candidate list a run works through: the identified
incomplete cases after the safety governor, empty when identification
fails. -/
def candidatesOf (env : S3Env) (config : Config) : List String :=
  match identify_incomplete_cases env config.raw_bucket_name
      config.processed_bucket_name config.excluded_accounts with
  | .error _ => []
  | .ok incomplete_cases => validate_cleanup_safety incomplete_cases config.max_deletions

/-! ## `common/utils.py`: the existing-record index builder -/

/-- The per-key extraction of `get_existing_cases_batch`: for keys like
`account_number=123/case_number=456/data.json` the case display id
`"456"`; `none` when the key is not a terminal marker of the expected
shape. -/
def extractCaseId (key : String) : Option String :=
  if pyEndsWith "/data.json" key then
    let key_parts := pySplit '/' key
    if key_parts.length ≥ 2 then
      let case_part := key_parts.getD (key_parts.length - 2) ""
      if pyStartsWith "case_number=" case_part then
        some ((pySplit '=' case_part).getD 1 "")
      else none
    else none
  else none

/-- Embedding of `get_existing_cases_batch` from `common/utils.py`, with the paginated
listing of the account folder supplied as an oracle outcome.  A listing
failure is caught and yields the empty set. -/
def get_existing_cases_batch (listing : Except String (List String)) : Finset String :=
  match listing with
  | .error _ => ∅
  | .ok keys =>
    keys.foldl (fun s k =>
      match extractCaseId k with
      | some c => insert c s
      | none => s) ∅

/-- Environment in which every head-object call reports the marker
present. -/
def envMarkerFound : S3Env where
  listPrefixes := fun _ _ => .ok []
  listKeys := fun _ _ => .ok []
  headObject := fun _ _ => .ok
  deleteObjects := fun _ _ => .ok []

/-- Environment for the C4 witness: listing the case folders of account 1
raises, account 2 holds one incomplete case. -/
def envC4 : S3Env where
  listPrefixes := fun _ pre =>
    if pre = "account_number=" then .ok ["account_number=1/", "account_number=2/"]
    else if pre = "account_number=1/" then .error "boom"
    else if pre = "account_number=2/" then .ok ["account_number=2/case_number=9/"]
    else .ok []
  listKeys := fun _ _ => .ok []
  headObject := fun _ _ => .clientError "404"
  deleteObjects := fun _ _ => .ok []

/-- Environment whose bulk delete always reports one failed object. -/
def envC5 : S3Env where
  listPrefixes := fun _ _ => .ok []
  listKeys := fun _ _ => .ok ["k1"]
  headObject := fun _ _ => .clientError "404"
  deleteObjects := fun _ _ => .ok ["k1"]

/-- Environment for the C10 witness: the raw bucket holds one object whose
deletion raises, the processed bucket holds one object. -/
def envC10 : S3Env where
  listPrefixes := fun _ _ => .ok []
  listKeys := fun bucket _ => if bucket = "raw" then .ok ["r1"] else .ok ["p1"]
  headObject := fun _ _ => .clientError "404"
  deleteObjects := fun bucket _ => if bucket = "raw" then .exn "boom" else .ok []

/-- Whether both object listings of a candidate case folder succeed
(what C2 calls a candidate "whose object listing succeeded"). -/
def listingSucceeds (env : S3Env) (raw_bucket processed_bucket cf : String) : Bool :=
  (match env.listKeys raw_bucket cf with
   | .ok _ => true
   | .error _ => false) &&
  (match env.listKeys processed_bucket cf with
   | .ok _ => true
   | .error _ => false)

/-- Environment for exercising C2: one account with one incomplete case
folder whose path is malformed (no `=` in its second component), whose raw
listing holds one object. -/
def envC2 : S3Env where
  listPrefixes := fun _ pre =>
    if pre = "account_number=" then .ok ["account_number=1/"]
    else if pre = "account_number=1/" then .ok ["account_number=1/foo/"]
    else .ok []
  listKeys := fun bucket pre =>
    if bucket = "raw" ∧ pre = "account_number=1/foo/" then .ok ["account_number=1/foo/x"]
    else .ok []
  headObject := fun _ _ => .clientError "404"
  deleteObjects := fun _ _ => .ok []

/-- Environment whose raw bucket holds no account folders at all. -/
def envNoAccounts : S3Env where
  listPrefixes := fun _ _ => .ok []
  listKeys := fun _ _ => .ok []
  headObject := fun _ _ => .clientError "404"
  deleteObjects := fun _ _ => .ok []

/-- A dry-run configuration over buckets `raw` and `proc`. -/
def configDry : Config := ⟨"raw", "proc", true, 1000, []⟩

/-- A live (non-dry-run) configuration over buckets `raw` and `proc`. -/
def configLive : Config := ⟨"raw", "proc", false, 1000, []⟩

theorem retryLoop_calls_le (f : Nat → Except ε α) (b : Nat → ℚ)
    (l : List Nat) (last : Option ε) : (retryLoop f b l last).calls ≤ l.length := by
  induction l generalizing last with
  | nil => simp [retryLoop]
  | cons a rest ih =>
    simp only [retryLoop]
    cases h : f a with
    | ok v => simp
    | error e =>
      by_cases hb : b a < 0
      · simp only [if_pos hb, List.length_cons]
        omega
      · simp only [if_neg hb, List.length_cons]
        have := ih (some e)
        simp only [Nat.add_le_add_iff_right]
        exact this

theorem retryLoop_all_fail (f : Nat → Except ε α) (b : Nat → ℚ)
    (l : List Nat) (k : Nat) (last : Option ε)
    (hf : ∀ a ∈ l ++ [k], ∃ e, f a = .error e)
    (hb : ∀ a ∈ l ++ [k], 0 ≤ b a) :
    ∃ e, f k = .error e ∧
      retryLoop f b (l ++ [k]) last =
        ⟨.error (some e), (l ++ [k]).length, (l ++ [k]).map b⟩ := by
  induction l generalizing last with
  | nil =>
    obtain ⟨e, he⟩ := hf k (by simp)
    refine ⟨e, he, ?_⟩
    have hbk : ¬ b k < 0 := not_lt.mpr (hb k (by simp))
    simp [retryLoop, he, hbk]
  | cons a rest ih =>
    obtain ⟨ea, hea⟩ := hf a (by simp)
    have hba : ¬ b a < 0 := not_lt.mpr (hb a (by simp))
    obtain ⟨e, he, hrec⟩ := ih (some ea)
      (fun x hx => hf x (by simp at hx ⊢; tauto))
      (fun x hx => hb x (by simp at hx ⊢; tauto))
    refine ⟨e, he, ?_⟩
    simp only [List.cons_append, retryLoop, hea, if_neg hba, List.append_eq]
    rw [hrec]
    simp

theorem retryLoop_first_success (f : Nat → Except ε α) (b : Nat → ℚ)
    (l : List Nat) (k : Nat) (rest : List Nat) (last : Option ε) (v : α)
    (hf : ∀ a ∈ l, ∃ e, f a = .error e)
    (hb : ∀ a ∈ l, 0 ≤ b a)
    (hk : f k = .ok v) :
    retryLoop f b (l ++ k :: rest) last = ⟨.ok v, l.length + 1, l.map b⟩ := by
  induction l generalizing last with
  | nil => simp [retryLoop, hk]
  | cons a tl ih =>
    obtain ⟨ea, hea⟩ := hf a (by simp)
    have hba : ¬ b a < 0 := not_lt.mpr (hb a (by simp))
    have hrec := ih (some ea)
      (fun x hx => hf x (by simp [hx]))
      (fun x hx => hb x (by simp [hx]))
    simp only [List.cons_append, retryLoop, hea, if_neg hba, List.append_eq]
    rw [hrec]
    simp

theorem exponential_backoff_nonneg (a n : Nat) (base rand : ℚ)
    (h : a < n) (hbase : 0 ≤ base) (hrand : 0 ≤ rand) :
    0 ≤ exponential_backoff a n base true rand := by
  unfold exponential_backoff
  rw [if_neg (by omega)]
  simp only [if_pos rfl]
  have h2 : (0:ℚ) ≤ base * 2 ^ a := by positivity
  have h3 : (0:ℚ) ≤ 4/5 + 1/5 * rand := by linarith
  exact mul_nonneg h2 h3

/-- C3: `retry_with_backoff` with maximum attempt count `n` invokes the
wrapped operation at most `n` times; if some invocation succeeds it returns
that result without any further invocation (exactly `k + 1` calls when the
first success is attempt `k`), and if all `n` invocations fail it re-raises
the exception of the final invocation. -/
theorem retry_with_backoff_bounded_and_propagates
    (f : Nat → Except ε α) (n : Nat) (base : ℚ) (rand : Nat → ℚ)
    (hbase : 0 ≤ base) (hrand : ∀ i, 0 ≤ rand i) :
    ((retry_with_backoff f n base rand).calls ≤ n)
    ∧ (∀ k v, k < n → f k = .ok v → (∀ j, j < k → ∃ e, f j = .error e) →
        (retry_with_backoff f n base rand).result = .ok v ∧
        (retry_with_backoff f n base rand).calls = k + 1)
    ∧ (0 < n → (∀ i, i < n → ∃ e, f i = .error e) →
        ∃ e, f (n - 1) = .error e ∧
          (retry_with_backoff f n base rand).result = .error (some e) ∧
          (retry_with_backoff f n base rand).calls = n) := by
  refine ⟨?_, ?_, ?_⟩
  · simpa using retryLoop_calls_le f _ (List.range n) none
  · intro k v hkn hk hfail
    have hsplit : List.range n = List.range k ++ k ::
        (List.map (fun i => k + Nat.succ i) (List.range (n - k - 1))) := by
      have h1 : n = k + (n - k) := by omega
      have h2 : n - k = (n - k - 1) + 1 := by omega
      calc List.range n = List.range (k + (n - k)) := by rw [← h1]
        _ = List.range k ++ List.map (fun i => k + i) (List.range (n - k)) :=
            List.range_add k (n - k)
        _ = List.range k ++ List.map (fun i => k + i)
              (0 :: List.map Nat.succ (List.range (n - k - 1))) := by
            rw [← List.range_succ_eq_map, ← h2]
        _ = _ := by simp [List.map_map, Function.comp_def]
    unfold retry_with_backoff
    rw [hsplit, retryLoop_first_success _ _ _ _ _ _ v
      (fun a ha => hfail a (List.mem_range.mp ha))
      (fun a ha => exponential_backoff_nonneg a n base (rand a)
        (by have := List.mem_range.mp ha; omega) hbase (hrand a))
      hk]
    simp
  · intro hn hfail
    have hsplit : List.range n = List.range (n - 1) ++ [n - 1] := by
      have h1 : n = (n - 1) + 1 := by omega
      calc List.range n = List.range ((n - 1) + 1) := by rw [← h1]
        _ = _ := List.range_succ (n - 1)
    have hmem : ∀ a ∈ List.range (n - 1) ++ [n - 1], a < n := by
      intro a ha
      simp only [List.mem_append, List.mem_range, List.mem_singleton] at ha
      omega
    obtain ⟨e, he, hrun⟩ := retryLoop_all_fail f _ (List.range (n - 1)) (n - 1) none
      (fun a ha => hfail a (hmem a ha))
      (fun a ha => exponential_backoff_nonneg a n base (rand a) (hmem a ha) hbase (hrand a))
    refine ⟨e, he, ?_⟩
    unfold retry_with_backoff
    rw [hsplit, hrun]
    constructor
    · rfl
    · simp only [List.length_append, List.length_range, List.length_singleton]
      omega

/-- Witness for C3: with outcomes `error, ok 42, error` and three allowed
attempts, the wrapper returns `ok 42` after exactly two invocations. -/
theorem retry_with_backoff_bounded_and_propagates_witness :
    (retry_with_backoff (fun i => if i = 1 then Except.ok 42 else Except.error 0)
      3 1 (fun _ => 0)).result = .ok 42 ∧
    (retry_with_backoff (fun i => if i = 1 then Except.ok 42 else Except.error 0)
      3 1 (fun _ => 0)).calls = 2 :=
  (retry_with_backoff_bounded_and_propagates
    (fun i => if i = 1 then Except.ok 42 else Except.error 0) 3 1 (fun _ => 0)
    (by norm_num) (fun _ => le_refl 0)).2.1 1 42 (by omega) rfl
    (by
      intro j hj
      obtain rfl : j = 0 := by omega
      exact ⟨0, rfl⟩)

/-- C9: when all `n` invocations fail, the wrapper performs exactly `n`
backoff sleeps (one after each failed attempt, including the final one)
before re-raising the last exception; every slept delay is non-negative, so
the negative-delay break is never taken. -/
theorem retry_with_backoff_sleeps_after_every_failure
    (f : Nat → Except ε α) (n : Nat) (base : ℚ) (rand : Nat → ℚ)
    (hbase : 0 ≤ base) (hrand : ∀ i, 0 ≤ rand i)
    (hfail : ∀ i, i < n → ∃ e, f i = .error e) :
    ((retry_with_backoff f n base rand).sleeps.length = n)
    ∧ (∀ d ∈ (retry_with_backoff f n base rand).sleeps, 0 ≤ d)
    ∧ (0 < n → ∃ e, f (n - 1) = .error e ∧
        (retry_with_backoff f n base rand).result = .error (some e)) := by
  rcases Nat.eq_zero_or_pos n with hn | hn
  · subst hn
    refine ⟨?_, ?_, ?_⟩ <;> simp [retry_with_backoff, retryLoop]
  · have hsplit : List.range n = List.range (n - 1) ++ [n - 1] := by
      have h1 : n = (n - 1) + 1 := by omega
      calc List.range n = List.range ((n - 1) + 1) := by rw [← h1]
        _ = _ := List.range_succ (n - 1)
    have hmem : ∀ a ∈ List.range (n - 1) ++ [n - 1], a < n := by
      intro a ha
      simp only [List.mem_append, List.mem_range, List.mem_singleton] at ha
      omega
    obtain ⟨e, he, hrun⟩ := retryLoop_all_fail f
      (fun attempt => exponential_backoff attempt n base true (rand attempt))
      (List.range (n - 1)) (n - 1) none
      (fun a ha => hfail a (hmem a ha))
      (fun a ha => exponential_backoff_nonneg a n base (rand a) (hmem a ha) hbase (hrand a))
    have hrw : retry_with_backoff f n base rand =
        ⟨.error (some e), (List.range (n - 1) ++ [n - 1]).length,
          (List.range (n - 1) ++ [n - 1]).map
            (fun attempt => exponential_backoff attempt n base true (rand attempt))⟩ := by
      unfold retry_with_backoff
      rw [hsplit, hrun]
    refine ⟨?_, ?_, ?_⟩
    · rw [hrw]
      simp only [List.length_map, List.length_append, List.length_range,
        List.length_singleton]
      omega
    · intro d hd
      rw [hrw] at hd
      simp only [List.mem_map] at hd
      obtain ⟨a, ha, rfl⟩ := hd
      exact exponential_backoff_nonneg a n base (rand a) (hmem a ha) hbase (hrand a)
    · intro _
      refine ⟨e, he, ?_⟩
      rw [hrw]

/-- Witness for C9: with every one of three attempts failing, exactly three
sleeps happen and the final exception is re-raised. -/
theorem retry_with_backoff_sleeps_after_every_failure_witness :
    ((retry_with_backoff (fun i => (Except.error i : Except Nat Nat)) 3 1
      (fun _ => 0)).sleeps.length = 3) ∧
    ((retry_with_backoff (fun i => (Except.error i : Except Nat Nat)) 3 1
      (fun _ => 0)).result = .error (some 2)) := by
  have h := retry_with_backoff_sleeps_after_every_failure
    (fun i => (Except.error i : Except Nat Nat)) 3 1 (fun _ => 0)
    (by norm_num) (fun _ => le_refl 0) (fun i _ => ⟨i, rfl⟩)
  obtain ⟨e, he, hres⟩ := h.2.2 (by omega)
  have : e = 2 := by
    have := he
    simp only [Except.error.injEq] at this
    omega
  exact ⟨h.1, by rw [hres, this]⟩

/-! ## The safety governor (claim C1) -/

theorem stringLE_trans : ∀ (a b c : String),
    decide (a ≤ b) = true → decide (b ≤ c) = true → decide (a ≤ c) = true := by
  intro a b c
  simp only [decide_eq_true_eq]
  exact le_trans

theorem stringLE_total : ∀ (a b : String),
    (decide (a ≤ b) || decide (b ≤ a)) = true := by
  intro a b
  rcases le_total a b with h | h <;> simp [h]

/-- C1: for a candidate list of length `L` and configured maximum `M`,
`validate_cleanup_safety` returns exactly `min L M` case-folder keys: the
empty list when `L = 0`, the whole list when `0 < L ≤ M`, and for `L > M`
the `M` lexicographically smallest keys of the list (the `M`-element cut of
the sorted list, every returned key at most every key left behind). -/
theorem validate_cleanup_safety_bounded (cases : List String) (M : Nat) :
    ((validate_cleanup_safety cases M).length = min cases.length M)
    ∧ (cases.length = 0 → validate_cleanup_safety cases M = [])
    ∧ (0 < cases.length → cases.length ≤ M → validate_cleanup_safety cases M = cases)
    ∧ (M < cases.length →
        validate_cleanup_safety cases M =
          (cases.mergeSort (fun a b => decide (a ≤ b))).take M ∧
        ∃ rest, (validate_cleanup_safety cases M ++ rest).Perm cases ∧
          ∀ x ∈ validate_cleanup_safety cases M, ∀ y ∈ rest, x ≤ y) := by
  by_cases h0 : cases.length = 0
  · have hnil : cases = [] := List.length_eq_zero.mp h0
    subst hnil
    refine ⟨?_, fun _ => ?_, fun h _ => ?_, fun h => ?_⟩ <;>
      simp_all [validate_cleanup_safety]
  · by_cases hM : cases.length > M
    · have hval : validate_cleanup_safety cases M =
          (cases.mergeSort (fun a b => decide (a ≤ b))).take M := by
        simp [validate_cleanup_safety, h0, hM]
      refine ⟨?_, fun h => absurd h h0, fun _ h => absurd hM (not_lt.mpr h), fun _ => ?_⟩
      · rw [hval, List.length_take, List.length_mergeSort]
        omega
      · refine ⟨hval, (cases.mergeSort (fun a b => decide (a ≤ b))).drop M, ?_, ?_⟩
        · rw [hval, List.take_append_drop]
          exact List.mergeSort_perm cases _
        · intro x hx y hy
          rw [hval] at hx
          have hsorted : (cases.mergeSort (fun a b => decide (a ≤ b))).Pairwise
              (fun a b => decide (a ≤ b)) :=
            List.sorted_mergeSort stringLE_trans stringLE_total cases
          have hsplit := (List.take_append_drop M
            (cases.mergeSort (fun a b => decide (a ≤ b)))).symm
          rw [hsplit, List.pairwise_append] at hsorted
          have := hsorted.2.2 x hx y hy
          simpa using this
    · have hval : validate_cleanup_safety cases M = cases := by
        simp [validate_cleanup_safety, h0, hM]
      refine ⟨?_, fun h => absurd h h0, fun _ _ => hval, fun h => absurd h hM⟩
      rw [hval]
      omega

/-- Witness for C1 at a concrete list of three keys and cap two. -/
theorem validate_cleanup_safety_bounded_witness :
    (validate_cleanup_safety ["b", "a", "c"] 2).length = min 3 2 ∧
    (2 < 3 → validate_cleanup_safety ["b", "a", "c"] 2 =
      (["b", "a", "c"].mergeSort (fun a b => decide (a ≤ b))).take 2 ∧
      ∃ rest, (validate_cleanup_safety ["b", "a", "c"] 2 ++ rest).Perm ["b", "a", "c"] ∧
        ∀ x ∈ validate_cleanup_safety ["b", "a", "c"] 2, ∀ y ∈ rest, x ≤ y) :=
  ⟨(validate_cleanup_safety_bounded ["b", "a", "c"] 2).1,
   (validate_cleanup_safety_bounded ["b", "a", "c"] 2).2.2.2⟩

/-! ## The completion oracle (claim C6) -/

/-- C6: `check_case_completion` has exactly three outcomes: `ok true`
when the `data.json` marker exists in the processed bucket, `ok false` when
the head check fails with a 404 `ClientError`, and a propagated error for
any other failure. -/
theorem check_case_completion_trichotomy (env : S3Env)
    (processed_bucket case_folder : String) :
    (env.headObject processed_bucket (case_folder ++ "data.json") = .ok →
      check_case_completion env processed_bucket case_folder = .ok true)
    ∧ (env.headObject processed_bucket (case_folder ++ "data.json") = .clientError "404" →
      check_case_completion env processed_bucket case_folder = .ok false)
    ∧ (∀ code, code ≠ "404" →
        env.headObject processed_bucket (case_folder ++ "data.json") = .clientError code →
        check_case_completion env processed_bucket case_folder = .error code)
    ∧ (∀ msg, env.headObject processed_bucket (case_folder ++ "data.json") = .fatal msg →
        check_case_completion env processed_bucket case_folder = .error msg) := by
  refine ⟨fun h => ?_, fun h => ?_, fun code hc h => ?_, fun msg h => ?_⟩ <;>
    simp [check_case_completion, h]
  exact fun hcode => absurd hcode hc


/-- Witness for C6: with the marker present the oracle answers complete. -/
theorem check_case_completion_trichotomy_witness :
    check_case_completion envMarkerFound "proc" "account_number=1/case_number=2/" =
      .ok true :=
  (check_case_completion_trichotomy envMarkerFound "proc"
    "account_number=1/case_number=2/").1 rfl

/-! ## The existing-record index builder (claim C7) -/

theorem mem_existing_cases_foldl (keys : List String) (s : Finset String) (c : String) :
    (c ∈ keys.foldl (fun s k =>
        match extractCaseId k with
        | some x => insert x s
        | none => s) s) ↔
      c ∈ s ∨ ∃ k ∈ keys, extractCaseId k = some c := by
  induction keys generalizing s with
  | nil => simp
  | cons k ks ih =>
    simp only [List.foldl_cons]
    cases h : extractCaseId k with
    | none =>
      rw [ih]
      simp only [List.mem_cons]
      constructor
      · rintro (hs | ⟨k1, hk1, he1⟩)
        · exact Or.inl hs
        · exact Or.inr ⟨k1, Or.inr hk1, he1⟩
      · rintro (hs | ⟨k1, (rfl | hk1), he1⟩)
        · exact Or.inl hs
        · rw [h] at he1; cases he1
        · exact Or.inr ⟨k1, hk1, he1⟩
    | some x =>
      rw [ih]
      simp only [Finset.mem_insert, List.mem_cons]
      constructor
      · rintro ((rfl | hs) | ⟨k1, hk1, he1⟩)
        · exact Or.inr ⟨k, Or.inl rfl, by rw [h]⟩
        · exact Or.inl hs
        · exact Or.inr ⟨k1, Or.inr hk1, he1⟩
      · rintro (hs | ⟨k1, (rfl | hk1), he1⟩)
        · exact Or.inl (Or.inr hs)
        · rw [h] at he1
          exact Or.inl (Or.inl (Option.some.injEq _ _ ▸ he1).symm)
        · exact Or.inr ⟨k1, hk1, he1⟩

/-- C7: `get_existing_cases_batch` never raises: an enumeration failure
yields the empty set (callers then treat every record as new), and a
successful enumeration yields exactly the set of case ids extracted from
the keys ending in the terminal marker filename. -/
theorem get_existing_cases_batch_fallback (listing : Except String (List String)) :
    (∀ e, listing = .error e → get_existing_cases_batch listing = ∅)
    ∧ (∀ keys, listing = .ok keys → ∀ c,
        c ∈ get_existing_cases_batch listing ↔
          ∃ k ∈ keys, extractCaseId k = some c) := by
  refine ⟨fun e he => ?_, fun keys hk c => ?_⟩
  · rw [he]
    rfl
  · rw [hk]
    show c ∈ List.foldl _ ∅ keys ↔ _
    rw [mem_existing_cases_foldl]
    simp

/-- Witness for C7: on a failed listing the set is empty, and on a listing
with one marker key the extracted case id is a member. -/
theorem get_existing_cases_batch_fallback_witness :
    get_existing_cases_batch (.error "boom") = ∅ ∧
    ("456" ∈ get_existing_cases_batch
      (.ok ["account_number=123/case_number=456/data.json"])) :=
  ⟨(get_existing_cases_batch_fallback (.error "boom")).1 "boom" rfl,
   ((get_existing_cases_batch_fallback
      (.ok ["account_number=123/case_number=456/data.json"])).2
      ["account_number=123/case_number=456/data.json"] rfl "456").mpr
    ⟨"account_number=123/case_number=456/data.json", by simp, by decide⟩⟩

/-! ## The incomplete-set identifier (claim C4) -/

/-- C4: a failure raised while processing one account folder is caught
and that account skipped (an account whose case listing raises contributes
nothing), while every other account folder is still scanned and its
incomplete case folders appear in the returned candidate list. -/
theorem identify_incomplete_cases_isolates_failures (env : S3Env)
    (raw_bucket processed_bucket : String) (excluded_accounts : List String)
    (account_folders : List String)
    (hacc : list_account_folders env raw_bucket = .ok account_folders) :
    ∃ L, identify_incomplete_cases env raw_bucket processed_bucket excluded_accounts = .ok L
      ∧ (∀ f ∈ account_folders,
          ∀ c ∈ processAccountFolder env raw_bucket processed_bucket excluded_accounts f,
            c ∈ L)
      ∧ (∀ f e, list_case_folders env raw_bucket f = .error e →
          processAccountFolder env raw_bucket processed_bucket excluded_accounts f = []) := by
  refine ⟨account_folders.flatMap
    (processAccountFolder env raw_bucket processed_bucket excluded_accounts), ?_, ?_, ?_⟩
  · unfold identify_incomplete_cases
    rw [hacc]
  · intro f hf c hc
    exact List.mem_flatMap.mpr ⟨f, hf, hc⟩
  · intro f e he
    unfold processAccountFolder
    cases haid : accountIdOf f with
    | none => rfl
    | some aid =>
      by_cases hskip : should_skip_account aid excluded_accounts
      · simp [hskip]
      · simp [hskip, he]


/-- Witness for C4: in `envC4` account 1 throws, yet the scan succeeds,
the incomplete case of account 2 is returned, and the throwing account
contributes nothing. -/
theorem identify_incomplete_cases_isolates_failures_witness :
    identify_incomplete_cases envC4 "raw" "proc" [] =
      .ok ["account_number=2/case_number=9/"] ∧
    processAccountFolder envC4 "raw" "proc" [] "account_number=1/" = [] := by
  obtain ⟨L, hL, hmem, hskip⟩ := identify_incomplete_cases_isolates_failures envC4
    "raw" "proc" [] ["account_number=1/", "account_number=2/"] rfl
  exact ⟨by rfl, hskip "account_number=1/" "boom" rfl⟩

/-! ## The batch reconciler (claims C5 and C10) -/

theorem deleteBatches_true_iff (call : String → List String → DeleteResp)
    (bucket : String) (batches : List (List String)) :
    (deleteBatches call bucket batches).1 = true ↔
      ∀ b ∈ batches, call bucket b = .ok [] := by
  induction batches with
  | nil => simp [deleteBatches]
  | cons b rest ih =>
    simp only [deleteBatches]
    cases h : call bucket b with
    | exn m =>
      constructor
      · intro hf
        simp at hf
      · intro hall
        have hb := hall b (by simp)
        rw [h] at hb
        cases hb
    | ok errs =>
      by_cases he : errs.isEmpty
      · have herrs : errs = [] := List.isEmpty_iff.mp he
        subst herrs
        simp only [if_pos he, List.forall_mem_cons, h]
        rw [ih]
        simp
      · have herrs : errs ≠ [] := fun hh => he (by simp [hh])
        simp only [if_neg he]
        constructor
        · intro hf
          simp at hf
        · intro hall
          have hb := hall b (by simp)
          rw [h] at hb
          simp only [DeleteResp.ok.injEq] at hb
          exact absurd hb herrs

theorem length_filter_add_length_filter_not (l : List α) (p : α → Bool) :
    (l.filter p).length + (l.filter (fun a => ! p a)).length = l.length := by
  induction l with
  | nil => rfl
  | cons a tl ih =>
    by_cases h : p a <;> simp only [List.filter_cons, h] <;> simp <;> omega

theorem perform_cleanup_batch_counts (env : S3Env) (raw_bucket processed_bucket : String)
    (dry_run : Bool) (case_folders : List String) :
    (perform_cleanup_batch env raw_bucket processed_bucket case_folders dry_run).1 =
      ((case_folders.filter (fun cf =>
          (delete_case_folder env raw_bucket processed_bucket cf dry_run).1)).length,
       (case_folders.filter (fun cf =>
          ! (delete_case_folder env raw_bucket processed_bucket cf dry_run).1)).length) := by
  induction case_folders with
  | nil => rfl
  | cons cf rest ih =>
    simp only [perform_cleanup_batch, List.filter_cons]
    cases h : (delete_case_folder env raw_bucket processed_bucket cf dry_run).1 with
    | false => simp [h, ih]
    | true => simp [h, ih]

/-- C5: a bulk delete response with any object-level error (or a raised
delete call) fails the deletion of the whole key, the batch run continues to the
next case key rather than aborting (successes and failures always sum to
the number of keys), and `perform_cleanup_batch` returns the pair of
success and failure counts. -/
theorem perform_cleanup_batch_error_isolation (env : S3Env)
    (raw_bucket processed_bucket : String) (dry_run : Bool) (case_folders : List String) :
    (∀ bucket objects, (∃ b ∈ batchSlices objects, env.deleteObjects bucket b ≠ .ok []) →
        (delete_objects_from_bucket env.deleteObjects bucket objects).1 = false)
    ∧ ((perform_cleanup_batch env raw_bucket processed_bucket case_folders dry_run).1.1 +
        (perform_cleanup_batch env raw_bucket processed_bucket case_folders dry_run).1.2 =
        case_folders.length)
    ∧ ((perform_cleanup_batch env raw_bucket processed_bucket case_folders dry_run).1 =
        ((case_folders.filter (fun cf =>
            (delete_case_folder env raw_bucket processed_bucket cf dry_run).1)).length,
         (case_folders.filter (fun cf =>
            ! (delete_case_folder env raw_bucket processed_bucket cf dry_run).1)).length)) := by
  refine ⟨?_, ?_,
    perform_cleanup_batch_counts env raw_bucket processed_bucket dry_run case_folders⟩
  · rintro bucket objects ⟨b, hb, hne⟩
    unfold delete_objects_from_bucket
    cases hres : (deleteBatches env.deleteObjects bucket (batchSlices objects)).1 with
    | false => rfl
    | true =>
      exact absurd (((deleteBatches_true_iff env.deleteObjects bucket
        (batchSlices objects)).mp hres) b hb) hne
  · rw [perform_cleanup_batch_counts env raw_bucket processed_bucket dry_run case_folders]
    exact length_filter_add_length_filter_not case_folders _


/-- Witness for C5: an object-level error fails the whole deletion, and the
counts of a one-key batch sum to one. -/
theorem perform_cleanup_batch_error_isolation_witness :
    (delete_objects_from_bucket envC5.deleteObjects "raw" ["k1"]).1 = false ∧
    (perform_cleanup_batch envC5 "raw" "proc"
        ["account_number=1/case_number=2/"] false).1.1 +
      (perform_cleanup_batch envC5 "raw" "proc"
        ["account_number=1/case_number=2/"] false).1.2 = 1 :=
  ⟨(perform_cleanup_batch_error_isolation envC5 "raw" "proc" false
      ["account_number=1/case_number=2/"]).1 "raw" ["k1"]
      ⟨["k1"], by decide, by decide⟩,
   (perform_cleanup_batch_error_isolation envC5 "raw" "proc" false
      ["account_number=1/case_number=2/"]).2.1⟩

theorem deleteBatches_trace_buckets (call : String → List String → DeleteResp)
    (bucket : String) (batches : List (List String)) :
    ∀ e ∈ (deleteBatches call bucket batches).2, ∃ ks, e = Effect.deleteCall bucket ks := by
  induction batches with
  | nil => simp [deleteBatches]
  | cons b rest ih =>
    simp only [deleteBatches]
    cases h : call bucket b with
    | exn m =>
      intro e he
      simp only [List.mem_singleton] at he
      exact ⟨b, he⟩
    | ok errs =>
      by_cases hne : errs.isEmpty
      · simp only [if_pos hne]
        intro e he
        rcases List.mem_cons.mp he with rfl | htl
        · exact ⟨b, rfl⟩
        · exact ih e htl
      · simp only [if_neg hne]
        intro e he
        simp only [List.mem_singleton] at he
        exact ⟨b, he⟩

theorem delete_case_folder_trace_split (env : S3Env)
    (raw_bucket processed_bucket case_folder : String) (dry_run : Bool) :
    ∃ t1 t2,
      (delete_case_folder env raw_bucket processed_bucket case_folder dry_run).2 = t1 ++ t2
      ∧ (∀ e ∈ t1, ∃ ks, e = Effect.deleteCall raw_bucket ks)
      ∧ (∀ e ∈ t2, ∃ ks, e = Effect.deleteCall processed_bucket ks) := by
  unfold delete_case_folder
  cases h1 : list_objects_in_case_folder env raw_bucket case_folder with
  | error e1 => exact ⟨[], [], rfl, by simp, by simp⟩
  | ok ro =>
    cases h2 : list_objects_in_case_folder env processed_bucket case_folder with
    | error e2 => exact ⟨[], [], rfl, by simp, by simp⟩
    | ok po =>
      by_cases h0 : ro.length + po.length = 0
      · simp only [if_pos h0]
        exact ⟨[], [], rfl, by simp, by simp⟩
      · simp only [if_neg h0]
        cases hp : get_case_info_from_folder case_folder with
        | none => exact ⟨[], [], rfl, by simp, by simp⟩
        | some info =>
          cases dry_run with
          | true => exact ⟨[], [], rfl, by simp, by simp⟩
          | false =>
            simp only [Bool.false_eq_true, if_false]
            have hrawtr : ∀ e ∈ (if ro.isEmpty then (true, ([] : List Effect))
                else delete_objects_from_bucket env.deleteObjects raw_bucket ro).2,
                ∃ ks, e = Effect.deleteCall raw_bucket ks := by
              by_cases hre : ro.isEmpty
              · simp [hre]
              · simp only [if_neg hre]
                exact deleteBatches_trace_buckets env.deleteObjects raw_bucket (batchSlices ro)
            have hproctr : ∀ e ∈ (if po.isEmpty then (true, ([] : List Effect))
                else delete_objects_from_bucket env.deleteObjects processed_bucket po).2,
                ∃ ks, e = Effect.deleteCall processed_bucket ks := by
              by_cases hpe : po.isEmpty
              · simp [hpe]
              · simp only [if_neg hpe]
                exact deleteBatches_trace_buckets env.deleteObjects processed_bucket
                  (batchSlices po)
            by_cases hrs : (if ro.isEmpty then (true, ([] : List Effect))
                else delete_objects_from_bucket env.deleteObjects raw_bucket ro).1
            · simp only [if_pos hrs]
              exact ⟨_, _, rfl, hrawtr, hproctr⟩
            · simp only [if_neg hrs]
              exact ⟨_, [], (List.append_nil _).symm, hrawtr, by simp⟩

theorem delete_case_folder_raw_failure (env : S3Env)
    (raw_bucket processed_bucket case_folder : String) (ro po : List String)
    (h1 : list_objects_in_case_folder env raw_bucket case_folder = .ok ro)
    (h2 : list_objects_in_case_folder env processed_bucket case_folder = .ok po)
    (hro : ro ≠ [])
    (hfail : (delete_objects_from_bucket env.deleteObjects raw_bucket ro).1 = false) :
    (delete_case_folder env raw_bucket processed_bucket case_folder false).1 = false
    ∧ ∀ e ∈ (delete_case_folder env raw_bucket processed_bucket case_folder false).2,
        ∃ ks, e = Effect.deleteCall raw_bucket ks := by
  have h0 : ¬ (ro.length + po.length = 0) := by
    cases ro with
    | nil => exact absurd rfl hro
    | cons x xs => simp
  have hre : ¬ ro.isEmpty := by
    cases ro with
    | nil => exact absurd rfl hro
    | cons x xs => simp
  unfold delete_case_folder
  rw [h1, h2]
  simp only [if_neg h0]
  cases hp : get_case_info_from_folder case_folder with
  | none => exact ⟨rfl, by simp⟩
  | some info =>
    simp only [Bool.false_eq_true, if_false, if_neg hre]
    rw [if_neg (by rw [hfail]; exact Bool.false_ne_true)]
    exact ⟨rfl, deleteBatches_trace_buckets env.deleteObjects raw_bucket (batchSlices ro)⟩

/-- C10: in live mode `delete_case_folder` always deletes the raw
objects before the processed objects (its trace is a block of raw-bucket
delete calls followed by a block of processed-bucket delete calls), and
when the raw deletion fails it returns failure having issued no delete
call against the processed bucket. -/
theorem delete_case_folder_raw_before_processed (env : S3Env)
    (raw_bucket processed_bucket case_folder : String) :
    (∃ t1 t2,
      (delete_case_folder env raw_bucket processed_bucket case_folder false).2 = t1 ++ t2
      ∧ (∀ e ∈ t1, ∃ ks, e = Effect.deleteCall raw_bucket ks)
      ∧ (∀ e ∈ t2, ∃ ks, e = Effect.deleteCall processed_bucket ks))
    ∧ (∀ raw_objects processed_objects,
        list_objects_in_case_folder env raw_bucket case_folder = .ok raw_objects →
        list_objects_in_case_folder env processed_bucket case_folder = .ok processed_objects →
        raw_objects ≠ [] →
        (delete_objects_from_bucket env.deleteObjects raw_bucket raw_objects).1 = false →
        (delete_case_folder env raw_bucket processed_bucket case_folder false).1 = false
        ∧ ∀ e ∈ (delete_case_folder env raw_bucket processed_bucket case_folder false).2,
            ∃ ks, e = Effect.deleteCall raw_bucket ks) :=
  ⟨delete_case_folder_trace_split env raw_bucket processed_bucket case_folder false,
   fun ro po h1 h2 hro hfail =>
    delete_case_folder_raw_failure env raw_bucket processed_bucket case_folder ro po
      h1 h2 hro hfail⟩


/-- Witness for C10: with the raw deletion failing, the case deletion
reports failure. -/
theorem delete_case_folder_raw_before_processed_witness :
    (delete_case_folder envC10 "raw" "proc" "account_number=1/case_number=2/" false).1 =
      false :=
  ((delete_case_folder_raw_before_processed envC10 "raw" "proc"
    "account_number=1/case_number=2/").2 ["r1"] ["p1"] rfl rfl
    (by decide) (by decide)).1

/-! ## Dry-run purity (claim C2) and the run-result shape (claim C8) -/

theorem delete_case_folder_dry_run_trace (env : S3Env)
    (raw_bucket processed_bucket case_folder : String) :
    (delete_case_folder env raw_bucket processed_bucket case_folder true).2 = [] := by
  unfold delete_case_folder
  cases h1 : list_objects_in_case_folder env raw_bucket case_folder with
  | error e1 => rfl
  | ok ro =>
    cases h2 : list_objects_in_case_folder env processed_bucket case_folder with
    | error e2 => rfl
    | ok po =>
      by_cases h0 : ro.length + po.length = 0
      · simp [h0]
      · simp only [if_neg h0]
        cases hp : get_case_info_from_folder case_folder with
        | none => rfl
        | some info => rfl

theorem delete_case_folder_dry_run_true_iff (env : S3Env)
    (raw_bucket processed_bucket case_folder : String) :
    (delete_case_folder env raw_bucket processed_bucket case_folder true).1 = true ↔
      ∃ ro po, list_objects_in_case_folder env raw_bucket case_folder = .ok ro ∧
        list_objects_in_case_folder env processed_bucket case_folder = .ok po ∧
        (ro.length + po.length = 0 ∨ (get_case_info_from_folder case_folder).isSome) := by
  unfold delete_case_folder
  cases h1 : list_objects_in_case_folder env raw_bucket case_folder with
  | error e1 => simp
  | ok ro =>
    cases h2 : list_objects_in_case_folder env processed_bucket case_folder with
    | error e2 => simp
    | ok po =>
      by_cases h0 : ro.length + po.length = 0
      · simp only [if_pos h0]
        constructor
        · intro _
          exact ⟨ro, po, rfl, rfl, Or.inl h0⟩
        · intro _
          trivial
      · simp only [if_neg h0]
        cases hp : get_case_info_from_folder case_folder with
        | none =>
          constructor
          · intro hf
            simp at hf
          · rintro ⟨ro1, po1, hro1, hpo1, hcond⟩
            obtain rfl : ro = ro1 := Except.ok.inj hro1
            obtain rfl : po = po1 := Except.ok.inj hpo1
            rcases hcond with hlen | hsome
            · exact absurd hlen h0
            · simp at hsome
        | some info => simp [h0]

theorem perform_cleanup_batch_dry_run_trace (env : S3Env)
    (raw_bucket processed_bucket : String) (case_folders : List String) :
    (perform_cleanup_batch env raw_bucket processed_bucket case_folders true).2 = [] := by
  induction case_folders with
  | nil => rfl
  | cons cf rest ih =>
    simp only [perform_cleanup_batch, ih, delete_case_folder_dry_run_trace,
      List.append_nil]

theorem cleanup_dry_run_trace (env : S3Env) (config : Config) (dur : ℚ)
    (hdry : config.dry_run = true) :
    (cleanup_incomplete_cases env config dur).2 = [] := by
  unfold cleanup_incomplete_cases
  cases hacc : list_account_folders env config.raw_bucket_name with
  | error e => simp [metricsIf, hdry]
  | ok folders =>
    by_cases hemp : folders.isEmpty
    · simp [hemp, metricsIf, hdry]
    · simp only [if_neg hemp]
      cases hap : computeAccountsProcessed folders config.excluded_accounts with
      | none => simp [metricsIf, hdry]
      | some ap =>
        cases hid : identify_incomplete_cases env config.raw_bucket_name
            config.processed_bucket_name config.excluded_accounts with
        | error e => simp [metricsIf, hdry]
        | ok incomplete =>
          by_cases hcand : (validate_cleanup_safety incomplete config.max_deletions).isEmpty
          · simp [hcand, metricsIf, hdry]
          · simp [hcand, metricsIf, hdry, perform_cleanup_batch_dry_run_trace]

theorem cleanup_dry_run_removed (env : S3Env) (config : Config) (dur : ℚ)
    (hdry : config.dry_run = true) (r : RunResult)
    (hr : (cleanup_incomplete_cases env config dur).1 = .ok r) :
    r.cases_removed = ((candidatesOf env config).filter (fun cf =>
      (delete_case_folder env config.raw_bucket_name
        config.processed_bucket_name cf true).1)).length := by
  cases hacc : list_account_folders env config.raw_bucket_name with
  | error e =>
    have hv : (cleanup_incomplete_cases env config dur).1 = Except.error e := by
      simp [cleanup_incomplete_cases, hacc]
    rw [hv] at hr
    cases hr
  | ok folders =>
    have hcand : candidatesOf env config = validate_cleanup_safety
        (folders.flatMap (processAccountFolder env config.raw_bucket_name
          config.processed_bucket_name config.excluded_accounts)) config.max_deletions := by
      unfold candidatesOf identify_incomplete_cases
      rw [hacc]
    by_cases hemp : folders.isEmpty
    · have hv : (cleanup_incomplete_cases env config dur).1 =
          Except.ok (⟨0, 0, 0, 0, 0, none⟩ : RunResult) := by
        simp [cleanup_incomplete_cases, hacc, hemp]
      rw [hv] at hr
      obtain rfl : (⟨0, 0, 0, 0, 0, none⟩ : RunResult) = r := Except.ok.inj hr
      rw [hcand, List.isEmpty_iff.mp hemp]
      simp [validate_cleanup_safety]
    · cases hap : computeAccountsProcessed folders config.excluded_accounts with
      | none =>
        have hv : (cleanup_incomplete_cases env config dur).1 = Except.error "IndexError" := by
          simp [cleanup_incomplete_cases, hacc, hemp, hap]
        rw [hv] at hr
        cases hr
      | some ap =>
        have hid : identify_incomplete_cases env config.raw_bucket_name
            config.processed_bucket_name config.excluded_accounts =
            .ok (folders.flatMap (processAccountFolder env config.raw_bucket_name
              config.processed_bucket_name config.excluded_accounts)) := by
          unfold identify_incomplete_cases
          rw [hacc]
        set cands := validate_cleanup_safety
          (folders.flatMap (processAccountFolder env config.raw_bucket_name
            config.processed_bucket_name config.excluded_accounts))
          config.max_deletions with hc
        by_cases hcm : cands.isEmpty
        · have hv : (cleanup_incomplete_cases env config dur).1 =
              Except.ok (⟨ap, count_total_cases env config.raw_bucket_name folders
                config.excluded_accounts, 0, 0, dur, some config.dry_run⟩ : RunResult) := by
            simp [cleanup_incomplete_cases, hacc, hemp, hap, hid, ← hc, hcm]
          rw [hv] at hr
          obtain rfl := Except.ok.inj hr
          rw [hcand, List.isEmpty_iff.mp hcm]
          rfl
        · have hv : (cleanup_incomplete_cases env config dur).1 =
              Except.ok (⟨ap, count_total_cases env config.raw_bucket_name folders
                config.excluded_accounts,
                (perform_cleanup_batch env config.raw_bucket_name
                  config.processed_bucket_name cands config.dry_run).1.1,
                (perform_cleanup_batch env config.raw_bucket_name
                  config.processed_bucket_name cands config.dry_run).1.2,
                dur, some config.dry_run⟩ : RunResult) := by
            simp [cleanup_incomplete_cases, hacc, hemp, hap, hid, ← hc, hcm]
          rw [hv] at hr
          obtain rfl := Except.ok.inj hr
          rw [hcand]
          show (perform_cleanup_batch env config.raw_bucket_name
              config.processed_bucket_name cands config.dry_run).1.1 = _
          rw [hdry, perform_cleanup_batch_counts]

/-- C2, amended: with `dry_run = true` a run issues no delete call and
publishes no metric (its effect trace is empty), and on a non-fatal return
`records_removed` counts exactly the trimmed candidates the dry run reports
deletable: those whose two object listings succeed and that are either
empty or whose path parses into account and case ids. -/
theorem dry_run_purity (env : S3Env) (config : Config) (dur : ℚ)
    (hdry : config.dry_run = true) :
    ((cleanup_incomplete_cases env config dur).2 = [])
    ∧ (∀ r, (cleanup_incomplete_cases env config dur).1 = .ok r →
        r.cases_removed = ((candidatesOf env config).filter (fun cf =>
          (delete_case_folder env config.raw_bucket_name
            config.processed_bucket_name cf true).1)).length)
    ∧ (∀ cf, (delete_case_folder env config.raw_bucket_name
          config.processed_bucket_name cf true).1 = true ↔
        ∃ ro po, list_objects_in_case_folder env config.raw_bucket_name cf = .ok ro ∧
          list_objects_in_case_folder env config.processed_bucket_name cf = .ok po ∧
          (ro.length + po.length = 0 ∨ (get_case_info_from_folder cf).isSome)) :=
  ⟨cleanup_dry_run_trace env config dur hdry,
   fun r hr => cleanup_dry_run_removed env config dur hdry r hr,
   fun cf => delete_case_folder_dry_run_true_iff env config.raw_bucket_name
     config.processed_bucket_name cf⟩

/-- Witness for C2 (amended) at a concrete dry-run environment: the trace
is empty and `records_removed` matches the deletable-candidate count. -/
theorem dry_run_purity_witness :
    (cleanup_incomplete_cases envC2 configDry 0).2 = [] ∧
    (⟨1, 1, 0, 1, 0, some true⟩ : RunResult).cases_removed =
      ((candidatesOf envC2 configDry).filter (fun cf =>
        (delete_case_folder envC2 configDry.raw_bucket_name
          configDry.processed_bucket_name cf true).1)).length :=
  ⟨(dry_run_purity envC2 configDry 0 rfl).1,
   (dry_run_purity envC2 configDry 0 rfl).2.1 ⟨1, 1, 0, 1, 0, some true⟩ rfl⟩

/-- Counterexample to C2 as stated: in a dry run whose single trimmed
candidate has successful object listings but a malformed folder path,
`records_removed` is `0` while exactly one candidate had successful
listings ("what would have been deleted" per the claim). -/
theorem dry_run_purity_counterexample :
    configDry.dry_run = true ∧
    (cleanup_incomplete_cases envC2 configDry 0).1 =
      .ok ⟨1, 1, 0, 1, 0, some true⟩ ∧
    ((candidatesOf envC2 configDry).filter (fun cf =>
        listingSucceeds envC2 configDry.raw_bucket_name
          configDry.processed_bucket_name cf)).length = 1 :=
  ⟨rfl, rfl, rfl⟩

theorem cleanup_result_cases (env : S3Env) (config : Config) (dur : ℚ) (r : RunResult)
    (hr : (cleanup_incomplete_cases env config dur).1 = .ok r) :
    (r.dry_run = some config.dry_run ∧ r.duration_seconds = dur) ∨
    (list_account_folders env config.raw_bucket_name = .ok [] ∧
      r = ⟨0, 0, 0, 0, 0, none⟩) := by
  cases hacc : list_account_folders env config.raw_bucket_name with
  | error e =>
    have hv : (cleanup_incomplete_cases env config dur).1 = Except.error e := by
      simp [cleanup_incomplete_cases, hacc]
    rw [hv] at hr
    cases hr
  | ok folders =>
    by_cases hemp : folders.isEmpty
    · have hv : (cleanup_incomplete_cases env config dur).1 =
          Except.ok (⟨0, 0, 0, 0, 0, none⟩ : RunResult) := by
        simp [cleanup_incomplete_cases, hacc, hemp]
      rw [hv] at hr
      refine Or.inr ⟨?_, (Except.ok.inj hr).symm⟩
      rw [List.isEmpty_iff.mp hemp]
    · cases hap : computeAccountsProcessed folders config.excluded_accounts with
      | none =>
        have hv : (cleanup_incomplete_cases env config dur).1 = Except.error "IndexError" := by
          simp [cleanup_incomplete_cases, hacc, hemp, hap]
        rw [hv] at hr
        cases hr
      | some ap =>
        cases hid : identify_incomplete_cases env config.raw_bucket_name
            config.processed_bucket_name config.excluded_accounts with
        | error e =>
          have hv : (cleanup_incomplete_cases env config dur).1 = Except.error e := by
            simp [cleanup_incomplete_cases, hacc, hemp, hap, hid]
          rw [hv] at hr
          cases hr
        | ok incomplete =>
          by_cases hc : (validate_cleanup_safety incomplete config.max_deletions).isEmpty
          · have hv : (cleanup_incomplete_cases env config dur).1 =
                Except.ok (⟨ap, count_total_cases env config.raw_bucket_name folders
                  config.excluded_accounts, 0, 0, dur, some config.dry_run⟩ : RunResult) := by
              simp [cleanup_incomplete_cases, hacc, hemp, hap, hid, hc]
            rw [hv] at hr
            obtain rfl := Except.ok.inj hr
            exact Or.inl ⟨rfl, rfl⟩
          · have hv : (cleanup_incomplete_cases env config dur).1 =
                Except.ok (⟨ap, count_total_cases env config.raw_bucket_name folders
                  config.excluded_accounts,
                  (perform_cleanup_batch env config.raw_bucket_name
                    config.processed_bucket_name
                    (validate_cleanup_safety incomplete config.max_deletions)
                    config.dry_run).1.1,
                  (perform_cleanup_batch env config.raw_bucket_name
                    config.processed_bucket_name
                    (validate_cleanup_safety incomplete config.max_deletions)
                    config.dry_run).1.2,
                  dur, some config.dry_run⟩ : RunResult) := by
              simp [cleanup_incomplete_cases, hacc, hemp, hap, hid, hc]
            rw [hv] at hr
            obtain rfl := Except.ok.inj hr
            exact Or.inl ⟨rfl, rfl⟩

/-- C8, amended: a non-fatal run returns the six-field result object,
except for the early return when no account folders exist, which omits the
`dry_run` key (and reports zero duration); `lambda_handler` wraps a
non-fatal result in a 200 response and a fatal error in a status-500
error response. -/
theorem run_result_shape (env : S3Env) (config : Config) (dur : ℚ) :
    (∀ r, (cleanup_incomplete_cases env config dur).1 = .ok r →
        (r.dry_run = some config.dry_run ∧ r.duration_seconds = dur) ∨
        (list_account_folders env config.raw_bucket_name = .ok [] ∧
          r = ⟨0, 0, 0, 0, 0, none⟩))
    ∧ (∀ r, (cleanup_incomplete_cases env config dur).1 = .ok r →
        lambda_handler env config dur = ⟨200, some r, none⟩)
    ∧ (∀ e, (cleanup_incomplete_cases env config dur).1 = .error e →
        lambda_handler env config dur = ⟨500, none, some e⟩) := by
  refine ⟨fun r hr => cleanup_result_cases env config dur r hr, fun r hr => ?_, fun e he => ?_⟩
  · unfold lambda_handler
    rw [hr]
  · unfold lambda_handler
    rw [he]

/-- Witness for C8 (amended): the empty-bucket run yields a 200 response
wrapping the five-field early-return dictionary. -/
theorem run_result_shape_witness :
    lambda_handler envNoAccounts configLive 5 =
      ⟨200, some ⟨0, 0, 0, 0, 0, none⟩, none⟩ :=
  (run_result_shape envNoAccounts configLive 5).2.1 ⟨0, 0, 0, 0, 0, none⟩ rfl

/-- Counterexample to C8 as stated: a run over a bucket with no account
folders ends without fatal error, yet its result object lacks the
`dry_run` field. -/
theorem run_result_shape_counterexample :
    (cleanup_incomplete_cases envNoAccounts configLive 5).1 =
      .ok ⟨0, 0, 0, 0, 0, none⟩ ∧
    (⟨0, 0, 0, 0, 0, none⟩ : RunResult).dry_run = none :=
  ⟨rfl, rfl⟩

end CaseInsights
